import Mathlib

/-!
Verification of the baby-name dashboard's data pipeline and query layer
(`src/main.py`).  The pandas dataframe is embedded as a list of records;
every definition mirrors one line (or a small group of lines) of the
source, cited by line number in its doc comment.
-/

namespace NameApp

/-- One decoded CSV row of a per-year entry of the archive: `(name, sex, count)`
(line 21-22, `pd.read_csv` with columns `name, sex, count`). -/
structure RawRow where
  name : String
  sex : String
  count : Nat
  deriving DecidableEq, Repr

/-- One record of the concatenated dataset (lines 21-25): a raw row together
with the `year` column attached from the entry name. -/
structure Row where
  name : String
  sex : String
  count : Nat
  year : Int
  deriving DecidableEq, Repr

/-- A record of the cached dataset after `load_name_data` has populated the
derived columns `pct`, `total_births` and `prop` (lines 26-28). -/
structure LRow where
  name : String
  sex : String
  count : Nat
  year : Int
  pct : ℚ
  total_births : Nat
  prop : ℚ
  deriving DecidableEq, Repr

/-- One decimal digit of a `count` or `year` field; `none` for a non-digit
character (where Python `int` raises). -/
def charDigit? (c : Char) : Option Nat :=
  if c.isDigit then some (c.toNat - 48) else none

/-- Python `int` on a run of characters: the base-ten number they spell,
`none` when the run is empty or holds a non-digit. -/
def digitsToNat? (cs : List Char) : Option Nat :=
  if cs.isEmpty then none
  else
    cs.foldl
      (fun acc c =>
        match acc, charDigit? c with
        | some a, some d => some (10 * a + d)
        | _, _ => none)
      (some 0)

/-- `file.endswith('.txt')` (line 18): the entry name's characters end with
the four characters `.txt`. -/
def isTxtEntry (file : String) : Bool :=
  ".txt".data.isSuffixOf file.data

/-- `int(file[3:7])` (line 23): the characters of the entry name at
zero-indexed offsets 3 through 6 inclusive, read as a natural number;
`none` when they do not form one (Python `int` would raise there). -/
def extractYear (file : String) : Option Nat :=
  digitsToNat? ((file.data.drop 3).take 4)

/-- `df['year'] = int(file[3:7])` applied to one raw row (line 23): attach the
entry's year to the row. -/
def mkRow (y : Int) (rr : RawRow) : Row :=
  { name := rr.name, sex := rr.sex, count := rr.count, year := y }

/-- Lines 18-25 of `load_name_data`: iterate over the archive's entries, keep
exactly those whose name ends in `.txt`, give every row of a kept entry the
year `int(file[3:7])`, and concatenate the per-entry row lists in order.
The archive is a list of `(entry name, decoded rows)` pairs; the result is
`none` when `int(file[3:7])` fails for some kept entry, which aborts the
whole load. -/
def parseArchive : List (String × List RawRow) → Option (List Row)
  | [] => some []
  | e :: rest =>
    if isTxtEntry e.1 then
      match extractYear e.1, parseArchive rest with
      | some y, some out => some (e.2.map (mkRow (y : Int)) ++ out)
      | _, _ => none
    else
      parseArchive rest

/-- `data.groupby(['year','sex'])['count'].transform('sum')` evaluated at one
`(year, sex)` group (lines 26-27): the sum of `count` over all records of the
dataset sharing that year and sex. -/
def groupSum (base : List Row) (y : Int) (s : String) : Nat :=
  ((base.filter (fun r => r.year == y && r.sex == s)).map Row.count).sum

/-- Lines 26-28 applied to one record: `pct` is `count` divided by the
group-transformed sum (line 26), `total_births` is that same group sum
(line 27), and `prop` is `count` divided by the `total_births` column
(line 28).  Division is over `ℚ`. -/
def loadRow (base : List Row) (r : Row) : LRow :=
  { name := r.name
    sex := r.sex
    count := r.count
    year := r.year
    pct := (r.count : ℚ) / (groupSum base r.year r.sex : ℚ)
    total_births := groupSum base r.year r.sex
    prop := (r.count : ℚ) / (groupSum base r.year r.sex : ℚ) }

/-- The aggregator (lines 26-28): populate the derived columns of every record
of the dataset. -/
def load (base : List Row) : List LRow :=
  base.map (loadRow base)

/-- Sum of `count` over the records of the loaded dataset sharing `(y, s)`:
the meaning the spec gives to `total_births(year, sex)`. -/
def total_births_of (d : List LRow) (y : Int) (s : String) : Nat :=
  ((d.filter (fun r => r.year == y && r.sex == s)).map LRow.count).sum

/-- Line 52: `df[(df['year'] >= lo) & (df['year'] <= hi)]`. -/
def filtered_df (d : List LRow) (lo hi : Int) : List LRow :=
  d.filter (fun r => decide (lo ≤ r.year) && decide (r.year ≤ hi))

/-- Python `str.lower()`: lowercase a string character by character. -/
def lowerStr (s : String) : String :=
  ⟨s.data.map Char.toLower⟩

/-- Line 66: case-insensitive match of the `name` column against the input,
`filtered_df[filtered_df['name'].str.lower() == name_input.lower()]`. -/
def name_df (fdf : List LRow) (input : String) : List LRow :=
  fdf.filter (fun r => lowerStr r.name == lowerStr input)

/-- Lines 76-83 for one sex `s`: restrict the name-matched records to that
sex and read off the `(year, prop)` pairs that the trend chart plots. -/
def trend_seq (fdf : List LRow) (input s : String) : List (Int × ℚ) :=
  ((name_df fdf input).filter (fun r => r.sex == s)).map (fun r => (r.year, r.prop))

/-- The distinct names of a dataset: the keys of `groupby('name')`
(lines 102 and 106). -/
def namesOf (d : List LRow) : List String :=
  (d.map LRow.name).dedup

/-- `groupby('name')['count'].sum().reset_index()` (lines 102 and 106): one
`(name, summed count)` pair per distinct name of the dataset. -/
def groupByNameSum (d : List LRow) : List (String × Nat) :=
  (namesOf d).map (fun n => (n, ((d.filter (fun r => r.name == n)).map LRow.count).sum))

/-- The descending-by-count order used at line 108
(`sort_values(by='count', ascending=False)`). -/
def countGE (a b : String × Nat) : Prop :=
  b.2 ≤ a.2

instance : DecidableRel countGE :=
  fun a b => Nat.decLe b.2 a.2

instance : IsTotal (String × Nat) countGE :=
  ⟨fun a b => Nat.le_total b.2 a.2⟩

instance : IsTrans (String × Nat) countGE :=
  ⟨fun _ _ _ h₁ h₂ => Nat.le_trans h₂ h₁⟩

/-- Line 108: `sort_values(by='count', ascending=False).head(10)`.  The order
of count-ties is unspecified in the source (numpy quicksort); the model fixes
one descending rearrangement. -/
def topTen (l : List (String × Nat)) : List (String × Nat) :=
  (List.insertionSort countGE l).take 10

/-- The record set the summary statistics are computed over (lines 100-106):
all year-filtered records when the selector is `"Both"`, otherwise the
records of the selected sex (`gender_df`). -/
def sexSelect (fdf : List LRow) (g : String) : List LRow :=
  if g = "Both" then fdf else fdf.filter (fun r => r.sex == g)

/-- Lines 100-108: the summary table (top ten names by summed count over the
selected records) together with the grand-total scalar `total_births`
(the plain sum of `count` over the selected records, lines 101 and 105). -/
def summaryTab (fdf : List LRow) (g : String) : List (String × Nat) × Nat :=
  if g = "Both" then
    (topTen (groupByNameSum fdf), (fdf.map LRow.count).sum)
  else
    (topTen (groupByNameSum (fdf.filter (fun r => r.sex == g))),
     ((fdf.filter (fun r => r.sex == g)).map LRow.count).sum)

/-! ### Sample data used by witnesses -/

/-- A concrete raw dataset: the three largest 1880 rows. -/
def base0 : List Row :=
  [{ name := "Mary", sex := "F", count := 7065, year := 1880 },
   { name := "Anna", sex := "F", count := 2935, year := 1880 },
   { name := "John", sex := "M", count := 9655, year := 1880 }]

/-- The first record of `base0`. -/
def row0 : Row :=
  { name := "Mary", sex := "F", count := 7065, year := 1880 }

/-- A concrete loaded dataset with a name carried by both sexes. -/
def dEx : List LRow :=
  [{ name := "Sam", sex := "F", count := 3, year := 1900, pct := 1, total_births := 3, prop := 1 },
   { name := "Sam", sex := "M", count := 2, year := 1901, pct := 1, total_births := 2, prop := 1 }]

/-! ### The range filter (line 52) -/

theorem mem_filtered_df {d : List LRow} {lo hi : Int} {r : LRow} :
    r ∈ filtered_df d lo hi ↔ r ∈ d ∧ lo ≤ r.year ∧ r.year ≤ hi := by
  simp [filtered_df, List.mem_filter, and_assoc]

theorem filtered_df_sublist (d : List LRow) (lo hi : Int) :
    (filtered_df d lo hi).Sublist d :=
  List.filter_sublist d

theorem filtered_df_eq_nil_of_out (d : List LRow) (lo hi : Int)
    (h : ∀ r ∈ d, r.year < lo ∨ hi < r.year) :
    filtered_df d lo hi = [] := by
  apply List.filter_eq_nil_iff.mpr
  intro r hr hc
  simp only [Bool.and_eq_true, decide_eq_true_eq] at hc
  rcases h r hr with h' | h' <;> omega

/-- C6: for every integer pair `(lo, hi)` the range filter returns exactly the
records with `lo ≤ year ≤ hi`, preserves the dataset's order (the result is a
sublist of the input), and a range containing none of the dataset's years
yields the empty result rather than an error. -/
theorem filtered_df_spec (d : List LRow) (lo hi : Int) :
    (∀ r : LRow, r ∈ filtered_df d lo hi ↔ r ∈ d ∧ lo ≤ r.year ∧ r.year ≤ hi) ∧
    (filtered_df d lo hi).Sublist d ∧
    ((∀ r ∈ d, r.year < lo ∨ hi < r.year) → filtered_df d lo hi = []) :=
  ⟨fun _ => mem_filtered_df, filtered_df_sublist d lo hi, filtered_df_eq_nil_of_out d lo hi⟩

/-- Witness for C6 at a concrete dataset and an out-of-span range. -/
theorem filtered_df_spec_witness : filtered_df dEx 1950 2000 = [] :=
  (filtered_df_spec dEx 1950 2000).2.2 (by decide)

/-- C8: filtering an already-filtered result with the same or a wider range
returns the same list of records. -/
theorem filtered_df_idem (d : List LRow) (lo₁ hi₁ lo₂ hi₂ : Int)
    (hlo : lo₂ ≤ lo₁) (hhi : hi₁ ≤ hi₂) :
    filtered_df (filtered_df d lo₁ hi₁) lo₂ hi₂ = filtered_df d lo₁ hi₁ := by
  apply List.filter_eq_self.mpr
  intro r hr
  have h' := (List.mem_filter.mp hr).2
  simp only [Bool.and_eq_true, decide_eq_true_eq] at h' ⊢
  omega

/-- Witness for C8 at a concrete dataset, a range and a wider range. -/
theorem filtered_df_idem_witness :
    filtered_df (filtered_df dEx 1900 1901) 1880 1950 = filtered_df dEx 1900 1901 :=
  filtered_df_idem dEx 1900 1901 1880 1950 (by decide) (by decide)

/-! ### The trend lookup (lines 63-83) -/

theorem name_df_eq_nil (fdf : List LRow) (input : String)
    (h : ∀ r ∈ fdf, ¬ lowerStr r.name = lowerStr input) :
    name_df fdf input = [] := by
  apply List.filter_eq_nil_iff.mpr
  intro r hr
  simpa using h r hr

theorem trend_seq_eq_nil_of_no_match (fdf : List LRow) (input s : String)
    (h : ∀ r ∈ fdf, ¬ lowerStr r.name = lowerStr input) :
    trend_seq fdf input s = [] := by
  unfold trend_seq
  rw [name_df_eq_nil fdf input h]
  rfl

/-- C9: the query layer's operations are total functions of their parameters:
on the empty dataset, on a reversed range (`hi < lo`) and on a name matching
zero records they return empty results, never an error. -/
theorem query_layer_no_error (d : List LRow) (lo hi : Int) (input s g : String) :
    (filtered_df ([] : List LRow) lo hi = []) ∧
    (hi < lo → filtered_df d lo hi = []) ∧
    ((∀ r ∈ d, ¬ lowerStr r.name = lowerStr input) → trend_seq d input s = []) ∧
    (trend_seq ([] : List LRow) input s = []) ∧
    (summaryTab ([] : List LRow) g = ([], 0)) := by
  refine ⟨rfl, ?_, trend_seq_eq_nil_of_no_match d input s, rfl, ?_⟩
  · intro h
    exact filtered_df_eq_nil_of_out d lo hi (fun r _ => by omega)
  · unfold summaryTab
    split <;> simp [topTen, groupByNameSum, namesOf]

/-- Witness for C9: a reversed range and a zero-match name on a concrete
dataset both yield empty results. -/
theorem query_layer_no_error_witness :
    filtered_df dEx 2000 1990 = [] ∧ trend_seq dEx "Zed" "F" = [] :=
  ⟨(query_layer_no_error dEx 2000 1990 "Zed" "F" "Both").2.1 (by decide),
   (query_layer_no_error dEx 2000 1990 "Zed" "F" "Both").2.2.1 (by decide)⟩

/-! ### The load pipeline (lines 26-28) -/

theorem count_sum_map_loadRow (base bs : List Row) (y : Int) (s : String) :
    (((bs.map (loadRow base)).filter (fun r => r.year == y && r.sex == s)).map LRow.count).sum
      = ((bs.filter (fun r => r.year == y && r.sex == s)).map Row.count).sum := by
  induction bs with
  | nil => rfl
  | cons b rest ih =>
    have hYear : (loadRow base b).year = b.year := rfl
    have hSex : (loadRow base b).sex = b.sex := rfl
    have hCount : (loadRow base b).count = b.count := rfl
    simp only [List.map_cons, List.filter_cons, hYear, hSex]
    by_cases h : (b.year == y && b.sex == s) = true
    · simp [h, hCount, ih]
    · simp [h, ih]

theorem total_births_of_load (base : List Row) (y : Int) (s : String) :
    total_births_of (load base) y s = groupSum base y s :=
  count_sum_map_loadRow base base y s

/-- C1: every record of the loaded dataset has `prop` equal to `count` divided
by the sum of `count` over all records of the loaded dataset sharing its
`(year, sex)` pair, and its `total_births` column is exactly that sum. -/
theorem prop_eq_count_div_total (base : List Row) (r : LRow) (h : r ∈ load base) :
    r.prop = (r.count : ℚ) / (total_births_of (load base) r.year r.sex : ℚ) ∧
    r.total_births = total_births_of (load base) r.year r.sex := by
  rcases List.mem_map.mp h with ⟨b, hb, rfl⟩
  have ht : total_births_of (load base) (loadRow base b).year (loadRow base b).sex
      = groupSum base b.year b.sex := total_births_of_load base b.year b.sex
  refine ⟨?_, ?_⟩ <;> rw [ht] <;> rfl

/-- Witness for C1 at `base0` and its first record. -/
theorem prop_eq_count_div_total_witness :
    (loadRow base0 row0).prop
        = ((loadRow base0 row0).count : ℚ)
          / (total_births_of (load base0) (loadRow base0 row0).year (loadRow base0 row0).sex : ℚ) ∧
    (loadRow base0 row0).total_births
        = total_births_of (load base0) (loadRow base0 row0).year (loadRow base0 row0).sex :=
  prop_eq_count_div_total base0 (loadRow base0 row0) (List.mem_map.mpr ⟨row0, by decide, rfl⟩)

/-- C10: the two derived columns `pct` and `prop` agree on every record of
the loaded dataset; the computation of line 28 repeats that of line 26. -/
theorem pct_eq_prop (base : List Row) (r : LRow) (h : r ∈ load base) :
    r.pct = r.prop := by
  rcases List.mem_map.mp h with ⟨b, hb, rfl⟩
  rfl

/-- Witness for C10 at `base0` and its first record. -/
theorem pct_eq_prop_witness : (loadRow base0 row0).pct = (loadRow base0 row0).prop :=
  pct_eq_prop base0 (loadRow base0 row0) (List.mem_map.mpr ⟨row0, by decide, rfl⟩)

/-! ### The trend lookup, continued -/

theorem mem_trend_seq {fdf : List LRow} {input s : String} {p : Int × ℚ} :
    p ∈ trend_seq fdf input s ↔
      ∃ r, r ∈ fdf ∧ lowerStr r.name = lowerStr input ∧ r.sex = s ∧ p = (r.year, r.prop) := by
  constructor
  · intro hp
    rcases List.mem_map.mp hp with ⟨r, hr, rfl⟩
    rcases List.mem_filter.mp hr with ⟨hr2, hsex⟩
    rcases List.mem_filter.mp hr2 with ⟨hmem, hname⟩
    exact ⟨r, hmem, by simpa using hname, by simpa using hsex, rfl⟩
  · rintro ⟨r, hmem, hname, hsex, rfl⟩
    exact List.mem_map.mpr
      ⟨r, List.mem_filter.mpr ⟨List.mem_filter.mpr ⟨hmem, by simpa using hname⟩,
        by simpa using hsex⟩, rfl⟩

theorem trend_seq_pairwise (fdf : List LRow) (input s : String)
    (h : fdf.Pairwise (fun a b => a.year ≤ b.year)) :
    (trend_seq fdf input s).Pairwise (fun p q => p.1 ≤ q.1) := by
  unfold trend_seq name_df
  exact ((h.filter _).filter _).map _ (fun a b hab => hab)

/-- C5: the trend lookup returns, for any target name and sex, the
`(year, prop)` pairs of exactly the case-insensitively matching records of
that sex; a year-sorted dataset gives a year-sorted sequence; and a name
matching zero records yields the empty sequence rather than an error. -/
theorem trend_seq_spec (fdf : List LRow) (input s : String) :
    (∀ p : Int × ℚ, p ∈ trend_seq fdf input s ↔
        ∃ r, r ∈ fdf ∧ lowerStr r.name = lowerStr input ∧ r.sex = s ∧ p = (r.year, r.prop)) ∧
    (fdf.Pairwise (fun a b => a.year ≤ b.year) →
        (trend_seq fdf input s).Pairwise (fun p q => p.1 ≤ q.1)) ∧
    ((∀ r ∈ fdf, ¬ lowerStr r.name = lowerStr input) → trend_seq fdf input s = []) :=
  ⟨fun _ => mem_trend_seq, trend_seq_pairwise fdf input s, trend_seq_eq_nil_of_no_match fdf input s⟩

/-- Witness for C5: a mixed-case query on a year-sorted concrete dataset gives
a year-sorted sequence, and an unmatched name gives the empty sequence. -/
theorem trend_seq_spec_witness :
    (trend_seq dEx "sAm" "F").Pairwise (fun p q => p.1 ≤ q.1) ∧
    trend_seq dEx "Nobody" "F" = [] :=
  ⟨(trend_seq_spec dEx "sAm" "F").2.1 (by decide),
   (trend_seq_spec dEx "Nobody" "F").2.2 (by decide)⟩

/-! ### The top-ten summary (lines 100-108) -/

theorem topTen_length_le (l : List (String × Nat)) : (topTen l).length ≤ 10 :=
  List.length_take_le 10 (List.insertionSort countGE l)

theorem topTen_sorted (l : List (String × Nat)) :
    (topTen l).Pairwise (fun a b => b.2 ≤ a.2) :=
  List.Pairwise.sublist (List.take_sublist 10 _) (List.sorted_insertionSort countGE l)

/-- C2: for any year range and any sex selection the summary table has at
most ten rows and its rows are ordered non-increasing by total count. -/
theorem summary_top_len_sorted (d : List LRow) (lo hi : Int) (g : String) :
    ((summaryTab (filtered_df d lo hi) g).1.length ≤ 10) ∧
    ((summaryTab (filtered_df d lo hi) g).1.Pairwise (fun a b => b.2 ≤ a.2)) := by
  unfold summaryTab
  split <;> exact ⟨topTen_length_le _, topTen_sorted _⟩

theorem groupByNameSum_mem {d : List LRow} {p : String × Nat}
    (hp : p ∈ groupByNameSum d) :
    p.2 = ((d.filter (fun r => r.name == p.1)).map LRow.count).sum := by
  rcases List.mem_map.mp hp with ⟨n, hn, rfl⟩
  rfl

theorem groupByNameSum_fst (d : List LRow) :
    (groupByNameSum d).map Prod.fst = namesOf d := by
  unfold groupByNameSum
  rw [List.map_map]
  exact List.map_id _

theorem topTen_mem {l : List (String × Nat)} {p : String × Nat}
    (hp : p ∈ topTen l) : p ∈ l :=
  (List.mem_insertionSort countGE).mp (List.mem_of_mem_take hp)

theorem topTen_fst_nodup (l : List (String × Nat)) (h : (l.map Prod.fst).Nodup) :
    ((topTen l).map Prod.fst).Nodup := by
  have h1 : ((List.insertionSort countGE l).map Prod.fst).Nodup :=
    ((List.perm_insertionSort countGE l).map Prod.fst).nodup_iff.mpr h
  have h2 : (topTen l).map Prod.fst = ((List.insertionSort countGE l).map Prod.fst).take 10 := by
    simp [topTen, List.map_take]
  rw [h2]
  exact List.Nodup.sublist (List.take_sublist 10 _) h1

/-- C3: with selector `"Both"` every summary row's count is the sum of
`count` over all records carrying that name — across both sexes — and no name
appears in two rows: a unisex name contributes one combined total. -/
theorem summary_both_combines (d : List LRow) :
    (∀ p ∈ (summaryTab d "Both").1,
        p.2 = ((d.filter (fun r => r.name == p.1)).map LRow.count).sum) ∧
    ((summaryTab d "Both").1.map Prod.fst).Nodup := by
  have hb : (summaryTab d "Both").1 = topTen (groupByNameSum d) := by
    simp [summaryTab]
  rw [hb]
  constructor
  · intro p hp
    exact groupByNameSum_mem (topTen_mem hp)
  · apply topTen_fst_nodup
    rw [groupByNameSum_fst]
    exact List.nodup_dedup _

/-- Witness for C3: the unisex name of `dEx` gets one combined row summing
its female count 3 and male count 2. -/
theorem summary_both_combines_witness :
    (5 : Nat) = ((dEx.filter (fun r => r.name == "Sam")).map LRow.count).sum :=
  (summary_both_combines dEx).1 ("Sam", 5) (by decide)

theorem sum_map_add_distrib {α : Type} (l : List α) (f g : α → Nat) :
    (l.map (fun x => f x + g x)).sum = (l.map f).sum + (l.map g).sum := by
  induction l with
  | nil => rfl
  | cons a t ih =>
    simp only [List.map_cons, List.sum_cons, ih]
    omega

theorem sum_map_ite_single (x : String) (c : Nat) :
    ∀ keys : List String, keys.Nodup → x ∈ keys →
      (keys.map (fun n => if x = n then c else 0)).sum = c := by
  intro keys
  induction keys with
  | nil => intro _ hx; cases hx
  | cons k t ih =>
    intro hnd hx
    rcases List.mem_cons.mp hx with rfl | hx'
    · have hnot : x ∉ t := (List.nodup_cons.mp hnd).1
      have hz : (t.map (fun n => if x = n then c else 0)).sum = 0 := by
        apply List.sum_eq_zero
        intro v hv
        rcases List.mem_map.mp hv with ⟨n, hn, rfl⟩
        have hne : ¬ x = n := fun he => hnot (he ▸ hn)
        simp [hne]
      simp [hz]
    · have hne : ¬ x = k := fun he => (List.nodup_cons.mp hnd).1 (he ▸ hx')
      simp only [List.map_cons, List.sum_cons, if_neg hne, Nat.zero_add]
      exact ih (List.nodup_cons.mp hnd).2 hx'

theorem sum_keys_filter_name (d : List LRow) :
    ∀ keys : List String, keys.Nodup → (∀ r ∈ d, r.name ∈ keys) →
      (keys.map (fun n => ((d.filter (fun r => r.name == n)).map LRow.count).sum)).sum
        = (d.map LRow.count).sum := by
  induction d with
  | nil => intro keys _ _; simp
  | cons a rest ih =>
    intro keys hnd hmem
    have step : ∀ n : String,
        (((a :: rest).filter (fun r => r.name == n)).map LRow.count).sum
          = (if a.name = n then a.count else 0)
            + ((rest.filter (fun r => r.name == n)).map LRow.count).sum := by
      intro n
      by_cases h : a.name = n <;> simp [List.filter_cons, h]
    have hfg := funext step
    rw [show (fun n : String => (((a :: rest).filter (fun r => r.name == n)).map LRow.count).sum)
        = fun n : String => (if a.name = n then a.count else 0)
            + ((rest.filter (fun r => r.name == n)).map LRow.count).sum from hfg]
    rw [sum_map_add_distrib]
    rw [sum_map_ite_single a.name a.count keys hnd (hmem a (List.mem_cons_self a rest))]
    rw [ih keys hnd (fun r hr => hmem r (List.mem_cons_of_mem a hr))]
    simp

theorem sum_groupByNameSum (d : List LRow) :
    ((groupByNameSum d).map Prod.snd).sum = (d.map LRow.count).sum := by
  have h1 : (groupByNameSum d).map Prod.snd
      = (namesOf d).map (fun n => ((d.filter (fun r => r.name == n)).map LRow.count).sum) := by
    simp [groupByNameSum, List.map_map, Function.comp]
  rw [h1]
  exact sum_keys_filter_name d (namesOf d) (List.nodup_dedup _)
    (fun r hr => List.mem_dedup.mpr (List.mem_map.mpr ⟨r, hr, rfl⟩))

/-- C4: the grand-total scalar returned with the summary equals the sum of
`count` over the entire year-filtered, sex-selected record set, and equals
the sum of all the per-name group totals — independent of the truncation to
the top ten names. -/
theorem grand_total_spec (d : List LRow) (lo hi : Int) (g : String) :
    (summaryTab (filtered_df d lo hi) g).2
        = ((sexSelect (filtered_df d lo hi) g).map LRow.count).sum ∧
    (summaryTab (filtered_df d lo hi) g).2
        = ((groupByNameSum (sexSelect (filtered_df d lo hi) g)).map Prod.snd).sum := by
  have h1 : (summaryTab (filtered_df d lo hi) g).2
      = ((sexSelect (filtered_df d lo hi) g).map LRow.count).sum := by
    by_cases hg : g = "Both" <;> simp [summaryTab, sexSelect, hg]
  exact ⟨h1, h1.trans (sum_groupByNameSum _).symm⟩

/-! ### The record parser (lines 18-24) -/

theorem parseArchive_skip (e : String × List RawRow) (rest : List (String × List RawRow))
    (h : isTxtEntry e.1 = false) :
    parseArchive (e :: rest) = parseArchive rest := by
  simp [parseArchive, h]

theorem parseArchive_sound :
    ∀ (entries : List (String × List RawRow)) (out : List Row),
      parseArchive entries = some out →
      ∀ r ∈ out, ∃ e, e ∈ entries ∧ isTxtEntry e.1 = true ∧
        ∃ y : Nat, extractYear e.1 = some y ∧ r.year = (y : Int) ∧
          ({ name := r.name, sex := r.sex, count := r.count } : RawRow) ∈ e.2 := by
  intro entries
  induction entries with
  | nil =>
    intro out h r hr
    simp [parseArchive] at h
    subst h
    cases hr
  | cons e rest ih =>
    intro out h r hr
    by_cases htxt : isTxtEntry e.1 = true
    · simp only [parseArchive, htxt, if_true] at h
      cases hy : extractYear e.1 with
      | none => rw [hy] at h; simp at h
      | some y =>
        cases hrest : parseArchive rest with
        | none => rw [hy, hrest] at h; simp at h
        | some out' =>
          rw [hy, hrest] at h
          simp only [Option.some.injEq] at h
          subst h
          rcases List.mem_append.mp hr with hmem | hmem
          · rcases List.mem_map.mp hmem with ⟨rr, hrr, rfl⟩
            exact ⟨e, List.mem_cons_self e rest, htxt, y, hy, rfl, hrr⟩
          · rcases ih out' hrest r hmem with ⟨e', he', rest'⟩
            exact ⟨e', List.mem_cons_of_mem e he', rest'⟩
    · have hf : isTxtEntry e.1 = false := by simpa using htxt
      rw [parseArchive_skip e rest hf] at h
      rcases ih out h r hr with ⟨e', he', rest'⟩
      exact ⟨e', List.mem_cons_of_mem e he', rest'⟩

theorem parseArchive_complete :
    ∀ (entries : List (String × List RawRow)) (out : List Row),
      parseArchive entries = some out →
      ∀ e ∈ entries, isTxtEntry e.1 = true →
        ∃ y : Nat, extractYear e.1 = some y ∧ ∀ rr ∈ e.2, mkRow (y : Int) rr ∈ out := by
  intro entries
  induction entries with
  | nil =>
    intro out _ e he
    cases he
  | cons e₀ rest ih =>
    intro out h e he htxt
    by_cases h0 : isTxtEntry e₀.1 = true
    · simp only [parseArchive, h0, if_true] at h
      cases hy : extractYear e₀.1 with
      | none => rw [hy] at h; simp at h
      | some y =>
        cases hrest : parseArchive rest with
        | none => rw [hy, hrest] at h; simp at h
        | some out' =>
          rw [hy, hrest] at h
          simp only [Option.some.injEq] at h
          subst h
          rcases List.mem_cons.mp he with rfl | he'
          · exact ⟨y, hy, fun rr hrr =>
              List.mem_append_left _ (List.mem_map.mpr ⟨rr, hrr, rfl⟩)⟩
          · rcases ih out' hrest e he' htxt with ⟨y', hy', hall⟩
            exact ⟨y', hy', fun rr hrr => List.mem_append_right _ (hall rr hrr)⟩
    · have hf : isTxtEntry e₀.1 = false := by simpa using h0
      rw [parseArchive_skip e₀ rest hf] at h
      rcases List.mem_cons.mp he with rfl | he'
      · exact absurd htxt h0
      · exact ih out h e he' htxt

/-- C7: the parser processes exactly the `.txt` entries — every output record
traces back to a `.txt` entry and carries the year read from offsets 3
through 6 of that entry's name, every row of every `.txt` entry appears in
the output with that year, and prepending a non-`.txt` entry leaves the
output unchanged. -/
theorem parseArchive_txt_year (entries : List (String × List RawRow)) (out : List Row)
    (h : parseArchive entries = some out) :
    (∀ r ∈ out, ∃ e, e ∈ entries ∧ isTxtEntry e.1 = true ∧
        ∃ y : Nat, extractYear e.1 = some y ∧ r.year = (y : Int) ∧
          ({ name := r.name, sex := r.sex, count := r.count } : RawRow) ∈ e.2) ∧
    (∀ e ∈ entries, isTxtEntry e.1 = true →
        ∃ y : Nat, extractYear e.1 = some y ∧ ∀ rr ∈ e.2, mkRow (y : Int) rr ∈ out) ∧
    (∀ e₀ : String × List RawRow, isTxtEntry e₀.1 = false →
        parseArchive (e₀ :: entries) = parseArchive entries) :=
  ⟨parseArchive_sound entries out h, parseArchive_complete entries out h,
   fun e₀ h₀ => parseArchive_skip e₀ entries h₀⟩

/-- A concrete archive: two year entries and one non-`.txt` entry. -/
def entriesEx : List (String × List RawRow) :=
  [("yob1880.txt", [{ name := "Mary", sex := "F", count := 7065 }]),
   ("README.pdf", [{ name := "Bogus", sex := "X", count := 1 }]),
   ("yob1881.txt", [{ name := "John", sex := "M", count := 8769 }])]

/-- What the parser produces from `entriesEx`. -/
def outEx : List Row :=
  [{ name := "Mary", sex := "F", count := 7065, year := 1880 },
   { name := "John", sex := "M", count := 8769, year := 1881 }]

/-- Witness for C7: on the concrete archive, prepending a non-`.txt` entry
leaves the parse unchanged. -/
theorem parseArchive_txt_year_witness :
    parseArchive (("names.csv", ([] : List RawRow)) :: entriesEx) = parseArchive entriesEx :=
  (parseArchive_txt_year entriesEx outEx (by rfl)).2.2 ("names.csv", []) (by rfl)

end NameApp
